import Mathlib

/-
Verification of the scavenger SVG path library (src/lib.rs, src/simplification.rs,
src/path.rs, src/viewbox.rs).

Shallow embedding conventions:
* f32 values are modeled as exact numbers.  The lexical grammar of numbers
  denotes decimal values exactly, so tokens carry rationals; parser state and
  geometry live in the real numbers (the rational token value is embedded
  when it is consumed).
* The logos lexer yields a stream of Result<Token, ()> items.  This is modeled
  by a three-case token type: a command letter with its relative flag, a
  number, or a lexing-error item (an unrecognized letter, or a character that
  matches no rule).
* Each Rust parser method (Parser::m, Parser::l, ...) becomes a function from
  the parser state and the remaining token list to an Except value, mirroring
  the Result-returning methods.  Vec::push becomes list append.
-/

set_option linter.unusedVariables false
set_option linter.unnecessarySeqFocus false

namespace Scavenger

/-- The ten command families of src/lib.rs (enum Cmd). -/
inductive Cmd
  | M | L | H | V | C | S | Q | T | A | Z
  deriving DecidableEq

/-- Cmd::map — a letter maps to a family plus a relative flag; any other
letter gives None (which logos turns into a lexing error). -/
def Cmd.map (c : Char) : Option (Cmd × Bool) :=
  match c with
  | 'M' => some (Cmd.M, false)
  | 'm' => some (Cmd.M, true)
  | 'L' => some (Cmd.L, false)
  | 'l' => some (Cmd.L, true)
  | 'H' => some (Cmd.H, false)
  | 'h' => some (Cmd.H, true)
  | 'V' => some (Cmd.V, false)
  | 'v' => some (Cmd.V, true)
  | 'C' => some (Cmd.C, false)
  | 'c' => some (Cmd.C, true)
  | 'S' => some (Cmd.S, false)
  | 's' => some (Cmd.S, true)
  | 'Q' => some (Cmd.Q, false)
  | 'q' => some (Cmd.Q, true)
  | 'T' => some (Cmd.T, false)
  | 't' => some (Cmd.T, true)
  | 'A' => some (Cmd.A, false)
  | 'a' => some (Cmd.A, true)
  | 'Z' => some (Cmd.Z, false)
  | 'z' => some (Cmd.Z, true)
  | _ => none

/-- One item of the lexer stream: Ok(Token::Command), Ok(Token::Number) or a
lexing error Err(()). -/
inductive Token
  | command (c : Cmd) (relative : Bool)
  | number (n : ℚ)
  | err
  deriving DecidableEq

/-- The skip set of the lexer: `[ ,\t\r\n]+`. -/
def isSep (c : Char) : Bool :=
  c == ' ' || c == ',' || c == '\t' || c == '\r' || c == '\n'


/-- Greedily take a run of ASCII digits (`\d*`). -/
def takeDigits : List Char → List Char × List Char
  | c :: cs =>
    if c.isDigit then (c :: (takeDigits cs).1, (takeDigits cs).2)
    else ([], c :: cs)
  | [] => ([], [])

/-- The optional integer part of the number regex: `(?:0|[1-9]\d*)?`.
A leading 0 matches alone; otherwise a nonzero digit starts a digit run. -/
def takeIntPart : List Char → List Char × List Char
  | '0' :: cs => (['0'], cs)
  | c :: cs =>
    if c.isDigit then (c :: (takeDigits cs).1, (takeDigits cs).2)
    else ([], c :: cs)
  | [] => ([], [])

/-- The optional fraction part of the number regex: `(?:\.\d+)?`.
The dot is only consumed when at least one digit follows. -/
def takeFracPart : List Char → List Char × List Char
  | '.' :: cs =>
    match cs with
    | c :: _ =>
      if c.isDigit then takeDigits cs
      else ([], '.' :: cs)
    | [] => ([], ['.'])
  | l => ([], l)

/-- The optional leading minus sign of the number regex (`-?`). -/
def takeNeg : List Char → Bool × List Char
  | '-' :: t => (true, t)
  | l => (false, l)

/-- Decimal value of a digit run. -/
def digitsToNat (ds : List Char) : ℕ :=
  ds.foldl (fun a c => 10 * a + (c.toNat - '0'.toNat)) 0

/-- Value of a matched number slice.  `parse::<f32>().unwrap_or(0.0)`: the only
slice of the recognizing regex that fails to parse is a bare minus sign,
which falls back to 0.0. -/
def numValue (neg : Bool) (ip fp : List Char) : ℚ :=
  if ip = [] ∧ fp = [] then 0
  else
    (if neg then -1 else 1) *
      ((digitsToNat ip : ℚ) + (digitsToNat fp : ℚ) / (10 ^ fp.length))

/-- Longest match of the number regex `-?(?:0|[1-9]\d*)?(?:\.\d+)?` at the
head of the input; none when the longest match is empty (logos then emits a
lexing-error item). -/
def matchNumber (l : List Char) : Option (ℚ × List Char) :=
  let n1 := takeNeg l
  let n2 := takeIntPart n1.2
  let n3 := takeFracPart n2.2
  if n1.1 = false ∧ n2.1 = [] ∧ n3.1 = [] then none
  else some (numValue n1.1 n2.1 n3.1, n3.2)

theorem takeDigits_length (l : List Char) :
    (takeDigits l).1.length + (takeDigits l).2.length = l.length := by
  induction l with
  | nil => simp [takeDigits]
  | cons c cs ih =>
    rw [takeDigits]
    split
    · simp only [List.length_cons]
      omega
    · simp

theorem takeIntPart_le (l : List Char) :
    (takeIntPart l).2.length ≤ l.length := by
  rw [takeIntPart.eq_def]
  split
  · simp
  · rename_i c cs hne
    split
    · have := takeDigits_length cs
      simp only [List.length_cons]
      simp
      omega
    · simp
  · simp

theorem takeIntPart_lt (l : List Char) (h : (takeIntPart l).1 ≠ []) :
    (takeIntPart l).2.length < l.length := by
  rw [takeIntPart.eq_def] at h ⊢
  split at h
  · simp
  · rename_i c cs hne
    split
    · have := takeDigits_length cs
      simp only [List.length_cons]
      simp
      omega
    · rename_i hdig
      simp [hdig] at h
  · simp at h

theorem takeFracPart_le (l : List Char) :
    (takeFracPart l).2.length ≤ l.length := by
  rw [takeFracPart.eq_def]
  split
  · rename_i cs
    split
    · rename_i c cs2
      split
      · have := takeDigits_length (c :: cs2)
        simp only [List.length_cons] at *
        omega
      · simp
    · simp
  · simp

theorem takeFracPart_lt (l : List Char) (h : (takeFracPart l).1 ≠ []) :
    (takeFracPart l).2.length < l.length := by
  rw [takeFracPart.eq_def] at h ⊢
  split at h
  · rename_i cs
    split at h
    · rename_i c cs2
      split
      · have := takeDigits_length (c :: cs2)
        simp only [List.length_cons] at *
        omega
      · rename_i hdig
        simp [hdig] at h
    · simp at h
  · simp at h

theorem takeNeg_le (l : List Char) : (takeNeg l).2.length ≤ l.length := by
  rw [takeNeg.eq_def]
  split <;> simp

theorem takeNeg_true (l : List Char) (h : (takeNeg l).1 = true) :
    (takeNeg l).2.length < l.length := by
  rw [takeNeg.eq_def] at h ⊢
  split at h
  · simp
  · simp at h

theorem matchNumber_length {l : List Char} {q : ℚ} {rest : List Char}
    (h : matchNumber l = some (q, rest)) : rest.length < l.length := by
  rw [matchNumber] at h
  split at h
  · exact absurd h (by simp)
  · rename_i hguard
    simp only [Option.some.injEq, Prod.mk.injEq] at h
    obtain ⟨-, rfl⟩ := h
    have h1 := takeNeg_le l
    have h2 := takeIntPart_le (takeNeg l).2
    have h3 := takeFracPart_le (takeIntPart (takeNeg l).2).2
    by_cases hneg : (takeNeg l).1 = true
    · have := takeNeg_true l hneg
      omega
    · simp only [Bool.not_eq_true] at hneg
      rcases Decidable.em ((takeIntPart (takeNeg l).2).1 = []) with hip | hip
      · have hfp : (takeFracPart (takeIntPart (takeNeg l).2).2).1 ≠ [] := by
          intro hfp
          exact hguard ⟨hneg, hip, hfp⟩
        have := takeFracPart_lt (takeIntPart (takeNeg l).2).2 hfp
        omega
      · have := takeIntPart_lt (takeNeg l).2 hip
        omega

/-- One pass of the logos lexer: skip separators, a letter lexes through
Cmd::map (an unrecognized letter is an error item), anything else lexes
through the number regex, and a character with no nonempty match is an
error item.  Recursion is on the remaining input length. -/
def tokenize : List Char → List Token
  | [] => []
  | c :: cs =>
    if isSep c then tokenize cs
    else if c.isAlpha then
      (match Cmd.map c with
        | some (cmd, rel) => Token.command cmd rel
        | none => Token.err) :: tokenize cs
    else
      match h : matchNumber (c :: cs) with
      | some (q, rest) => Token.number q :: tokenize rest
      | none => Token.err :: tokenize cs
termination_by l => l.length
decreasing_by
  · simp
  · simp
  · exact matchNumber_length h
  · simp


/-- The normalized output commands of src/lib.rs (enum Command).  All
coordinates are absolute. -/
inductive Command
  | MoveTo (x y : ℝ)
  | LineTo (x y : ℝ)
  | CurveTo (x1 y1 x2 y2 x y : ℝ)
  | ClosePath
  | SmoothCurveTo (cx cy x2 y2 x y : ℝ)
  | QuadraticBezierCurveTo (x1 y1 x y : ℝ)
  | SmoothQuadraticBezierCurveTo (cx cy x y : ℝ)

/-- The two parse failure kinds (enum Expected). -/
inductive Expected
  | command
  | number
  deriving DecidableEq

noncomputable section

/-- f32::to_radians. -/
def toRadians (x : ℝ) : ℝ := x * (Real.pi / 180)

/-- simplification.rs: calculate_angle — signed angle from (ux,uy) to (vx,vy). -/
def calculate_angle (ux uy vx vy : ℝ) : ℝ :=
  let dot := ux * vx + uy * vy
  let len := Real.sqrt ((ux * ux + uy * uy) * (vx * vx + vy * vy))
  let angle := Real.arccos (dot / len)
  if ux * vy - uy * vx < 0 then -angle else angle

/-- The transformed start point x1' of the endpoint-to-center conversion
(step 1 of calculate_ellipse_parameters). -/
def arc_x1p (x0 y0 x y phi : ℝ) : ℝ :=
  Real.cos (toRadians phi) * ((x0 - x) / 2) + Real.sin (toRadians phi) * ((y0 - y) / 2)

/-- The transformed start point y1' of the endpoint-to-center conversion. -/
def arc_y1p (x0 y0 x y phi : ℝ) : ℝ :=
  -Real.sin (toRadians phi) * ((x0 - x) / 2) + Real.cos (toRadians phi) * ((y0 - y) / 2)

/-- The radii_check value x1p²/rx² + y1p²/ry² of calculate_ellipse_parameters
(rx, ry already made positive by the caller). -/
def radii_check (x0 y0 x y rx ry phi : ℝ) : ℝ :=
  arc_x1p x0 y0 x y phi * arc_x1p x0 y0 x y phi / (rx * rx) +
    arc_y1p x0 y0 x y phi * arc_y1p x0 y0 x y phi / (ry * ry)

/-- The body of calculate_ellipse_parameters after the zero-radius guard
(rxa, rya are the radii already made positive by abs).  Note the source
computes rx_sq/ry_sq before the radii correction and never refreshes them:
the radicand sq below deliberately uses the stale squares, while the center
offset and the angle vectors use the corrected radii. -/
def arc_core (x0 y0 x y rxa rya phi : ℝ)
    (large_arc_flag sweep_flag : Bool) : ℝ × ℝ × ℝ × ℝ :=
  let cos_phi := Real.cos (toRadians phi)
  let sin_phi := Real.sin (toRadians phi)
  let x1p := arc_x1p x0 y0 x y phi
  let y1p := arc_y1p x0 y0 x y phi
  let x1p_sq := x1p * x1p
  let y1p_sq := y1p * y1p
  let rx_sq := rxa * rxa
  let ry_sq := rya * rya
  let check := radii_check x0 y0 x y rxa rya phi
  let rxc := if check > 1 then rxa * Real.sqrt check else rxa
  let ryc := if check > 1 then rya * Real.sqrt check else rya
  let sign : ℝ := if large_arc_flag = sweep_flag then -1 else 1
  let sq := ((rx_sq * ry_sq) - (rx_sq * y1p_sq) - (ry_sq * x1p_sq)) /
    ((rx_sq * y1p_sq) + (ry_sq * x1p_sq))
  let coef := sign * Real.sqrt (max sq 0)
  let cxp := coef * ((rxc * y1p) / ryc)
  let cyp := coef * (-((ryc * x1p) / rxc))
  let cx := cos_phi * cxp - sin_phi * cyp + (x0 + x) / 2
  let cy := sin_phi * cxp + cos_phi * cyp + (y0 + y) / 2
  let ux := (x1p - cxp) / rxc
  let uy := (y1p - cyp) / ryc
  let vx := (-x1p - cxp) / rxc
  let vy := (-y1p - cyp) / ryc
  let start_angle := calculate_angle 1 0 ux uy
  let d0 := calculate_angle ux uy vx vy
  let delta_angle :=
    if sweep_flag = false ∧ d0 > 0 then d0 - 2 * Real.pi
    else if sweep_flag = true ∧ d0 < 0 then d0 + 2 * Real.pi
    else d0
  (cx, cy, start_angle, delta_angle)

/-- simplification.rs: calculate_ellipse_parameters — endpoint-to-center
parameterization of an SVG arc.  None when a radius is zero after abs. -/
def calculate_ellipse_parameters (x0 y0 x y rx ry phi : ℝ)
    (large_arc_flag sweep_flag : Bool) : Option (ℝ × ℝ × ℝ × ℝ) :=
  let rxa := |rx|
  let rya := |ry|
  if rxa = 0 ∨ rya = 0 then none
  else some (arc_core x0 y0 x y rxa rya phi large_arc_flag sweep_flag)

/-- simplification.rs: rotate_point — rotate (px,py) about (cx,cy). -/
def rotate_point (px py cx cy cos_rad sin_rad : ℝ) : ℝ × ℝ :=
  ((cx + (px - cx) * cos_rad - (py - cy) * sin_rad),
   (cy + (px - cx) * sin_rad + (py - cy) * cos_rad))

/-- A sampled point of the ellipse at parameter angle a, rotated about the
center by the x-axis rotation (the repeated rotate_point(x + a.cos()*rx,
y + a.sin()*ry, x, y, ..) expression of push_eliptical_cmds). -/
def arc_sample_point (x y rx ry cos_rad sin_rad a : ℝ) : ℝ × ℝ :=
  rotate_point (x + Real.cos a * rx) (y + Real.sin a * ry) x y cos_rad sin_rad

/-- The sampled parameter angle of substep boundary i of push_eliptical_cmds:
`angle1 + (angle2 - angle1) * (i / step_f)`. -/
def seg_angle (angle1 angle2 step_f i : ℝ) : ℝ :=
  angle1 + (angle2 - angle1) * (i / step_f)

/-- Loop body of push_eliptical_cmds for index i: the LineTo to the first
sample (only when i = 0) followed by the quadratic segment whose control
point is 2*mid - start/2 - end/2. -/
def eliptical_segment (x y rx ry angle1 angle2 cos_rad sin_rad step_f : ℝ)
    (i : ℕ) : List Command :=
  let a1 := seg_angle angle1 angle2 step_f (i : ℝ)
  let a2 := seg_angle angle1 angle2 step_f ((i : ℝ) + 1)
  let s := arc_sample_point x y rx ry cos_rad sin_rad a1
  let m := arc_sample_point x y rx ry cos_rad sin_rad ((a1 + a2) * 0.5)
  let e := arc_sample_point x y rx ry cos_rad sin_rad a2
  let cx := 2 * m.1 - s.1 / 2 - e.1 / 2
  let cy := 2 * m.2 - s.2 / 2 - e.2 / 2
  (if i = 0 then [Command.LineTo s.1 s.2] else []) ++
    [Command.SmoothQuadraticBezierCurveTo cx cy e.1 e.2]

/-- simplification.rs: push_eliptical_cmds — flatten the arc between angle1
and angle2 into `for i in 0..steps` quadratic segments appended to cmds. -/
def push_eliptical_cmds (cmds : List Command) (x y rx ry angle1 angle2
    x_axis_rotation : ℝ) (steps : ℤ) : List Command :=
  let rad := toRadians x_axis_rotation
  let cos_rad := Real.cos rad
  let sin_rad := Real.sin rad
  let step_f : ℝ := (steps : ℝ)
  cmds ++ (List.range steps.toNat).flatMap
    (eliptical_segment x y rx ry angle1 angle2 cos_rad sin_rad step_f)

end

noncomputable section

/-- The mutable fields of struct Parser: current point, current control
point, subpath start, configured arc step count, previous command letter,
and the accumulated output commands. -/
structure PState where
  px : ℝ
  py : ℝ
  cx : ℝ
  cy : ℝ
  sx : ℝ
  sy : ℝ
  bezier_steps : ℤ
  last_command : Option Cmd
  commands : List Command

/-- Parser::new — zeroed state, 16 bezier steps, no last command. -/
def initState : PState :=
  { px := 0, py := 0, cx := 0, cy := 0, sx := 0, sy := 0,
    bezier_steps := 16, last_command := none, commands := [] }

/-- Parser::l — the LineTo repetition loop: while the next token is a number
(peeked), read x and the required y, update the current point against the
relative offset and emit a LineTo. -/
def lLoop (relative : Bool) (st : PState) :
    List Token → Except Expected (PState × List Token)
  | Token.number x :: Token.number y :: rest =>
    let px := (x : ℝ) + (if relative then st.px else 0)
    let py := (y : ℝ) + (if relative then st.py else 0)
    lLoop relative
      { st with px := px, py := py,
                commands := st.commands ++ [Command.LineTo px py] } rest
  | Token.number _ :: _ => .error .number
  | ts => .ok (st, ts)

/-- Parser::h — the HorizontalLineTo repetition loop: only x is read, the
emitted LineTo keeps the current y. -/
def hLoop (relative : Bool) (st : PState) :
    List Token → Except Expected (PState × List Token)
  | Token.number x :: rest =>
    let px := (x : ℝ) + (if relative then st.px else 0)
    hLoop relative
      { st with px := px,
                commands := st.commands ++ [Command.LineTo px st.py] } rest
  | ts => .ok (st, ts)

/-- Parser::v — the VerticalLineTo repetition loop. -/
def vLoop (relative : Bool) (st : PState) :
    List Token → Except Expected (PState × List Token)
  | Token.number y :: rest =>
    let py := (y : ℝ) + (if relative then st.py else 0)
    vLoop relative
      { st with py := py,
                commands := st.commands ++ [Command.LineTo st.px py] } rest
  | ts => .ok (st, ts)

/-- Parser::c — the CubicCurveTo repetition loop: six numbers per group, the
second control point becomes the stored control point. -/
def cLoop (relative : Bool) (st : PState) :
    List Token → Except Expected (PState × List Token)
  | Token.number x1 :: Token.number y1 :: Token.number x2 :: Token.number y2 ::
      Token.number x :: Token.number y :: rest =>
    let dx := if relative then st.px else 0
    let dy := if relative then st.py else 0
    cLoop relative
      { st with px := (x : ℝ) + dx, py := (y : ℝ) + dy,
                cx := (x2 : ℝ) + dx, cy := (y2 : ℝ) + dy,
                commands := st.commands ++
                  [Command.CurveTo ((x1 : ℝ) + dx) ((y1 : ℝ) + dy)
                    ((x2 : ℝ) + dx) ((y2 : ℝ) + dy)
                    ((x : ℝ) + dx) ((y : ℝ) + dy)] } rest
  | Token.number _ :: _ => .error .number
  | ts => .ok (st, ts)

/-- Parser::s — the SmoothCubicCurveTo repetition loop: the incoming control
point is the reflection of the stored control point through the current
point when the previous command letter was C or S, otherwise the current
point; afterwards the stored control point becomes this group's x2,y2. -/
def sLoop (relative : Bool) (st : PState) :
    List Token → Except Expected (PState × List Token)
  | Token.number x2 :: Token.number y2 :: Token.number x :: Token.number y :: rest =>
    let dx := if relative then st.px else 0
    let dy := if relative then st.py else 0
    let rcx := if st.last_command = some Cmd.C ∨ st.last_command = some Cmd.S
      then st.px + (st.px - st.cx) else st.px
    let rcy := if st.last_command = some Cmd.C ∨ st.last_command = some Cmd.S
      then st.py + (st.py - st.cy) else st.py
    let px := (x : ℝ) + dx
    let py := (y : ℝ) + dy
    sLoop relative
      { st with px := px, py := py,
                cx := (x2 : ℝ) + dx, cy := (y2 : ℝ) + dy,
                commands := st.commands ++
                  [Command.SmoothCurveTo rcx rcy
                    ((x2 : ℝ) + dx) ((y2 : ℝ) + dy) px py] } rest
  | Token.number _ :: _ => .error .number
  | ts => .ok (st, ts)

/-- Parser::q — the QuadraticCurveTo repetition loop. -/
def qLoop (relative : Bool) (st : PState) :
    List Token → Except Expected (PState × List Token)
  | Token.number x1 :: Token.number y1 :: Token.number x :: Token.number y :: rest =>
    let dx := if relative then st.px else 0
    let dy := if relative then st.py else 0
    qLoop relative
      { st with px := (x : ℝ) + dx, py := (y : ℝ) + dy,
                cx := (x1 : ℝ) + dx, cy := (y1 : ℝ) + dy,
                commands := st.commands ++
                  [Command.QuadraticBezierCurveTo ((x1 : ℝ) + dx) ((y1 : ℝ) + dy)
                    ((x : ℝ) + dx) ((y : ℝ) + dy)] } rest
  | Token.number _ :: _ => .error .number
  | ts => .ok (st, ts)

/-- Parser::t — the SmoothQuadraticCurveTo repetition loop: reflection is
gated on the previous command letter being Q or T; afterwards the stored
control point becomes the new current point. -/
def tLoop (relative : Bool) (st : PState) :
    List Token → Except Expected (PState × List Token)
  | Token.number x :: Token.number y :: rest =>
    let dx := if relative then st.px else 0
    let dy := if relative then st.py else 0
    let rcx := if st.last_command = some Cmd.Q ∨ st.last_command = some Cmd.T
      then st.px + (st.px - st.cx) else st.px
    let rcy := if st.last_command = some Cmd.Q ∨ st.last_command = some Cmd.T
      then st.py + (st.py - st.cy) else st.py
    let px := (x : ℝ) + dx
    let py := (y : ℝ) + dy
    tLoop relative
      { st with px := px, py := py, cx := px, cy := py,
                commands := st.commands ++
                  [Command.SmoothQuadraticBezierCurveTo rcx rcy px py] } rest
  | Token.number _ :: _ => .error .number
  | ts => .ok (st, ts)

/-- Parser::a — the EllipticalArc repetition loop: seven numbers per group;
the current point moves to the arc endpoint first, the solved arc (if any)
is flattened and appended, and the stored control point becomes the
endpoint. -/
def aLoop (relative : Bool) (st : PState) :
    List Token → Except Expected (PState × List Token)
  | Token.number rx :: Token.number ry :: Token.number rot :: Token.number laf ::
      Token.number sf :: Token.number x :: Token.number y :: rest =>
    let dx := if relative then st.px else 0
    let dy := if relative then st.py else 0
    let x2 := st.px
    let y2 := st.py
    let px := dx + (x : ℝ)
    let py := dy + (y : ℝ)
    let cmds :=
      match calculate_ellipse_parameters x2 y2 px py (rx : ℝ) (ry : ℝ) (rot : ℝ)
        (decide (laf ≠ 0)) (decide (sf ≠ 0)) with
      | some (ecx, ecy, sa, da) =>
        push_eliptical_cmds st.commands ecx ecy (rx : ℝ) (ry : ℝ)
          sa (sa + da) (rot : ℝ) st.bezier_steps
      | none => st.commands
    aLoop relative
      { st with px := px, py := py, cx := px, cy := py, commands := cmds } rest
  | Token.number _ :: _ => .error .number
  | ts => .ok (st, ts)

/-- Parser::m — MoveTo: both coordinates are required, the subpath start is
reset, a MoveTo is emitted and the rest of the group is handled by the
LineTo repetition loop with the same relative flag. -/
def mStep (relative : Bool) (st : PState) :
    List Token → Except Expected (PState × List Token)
  | Token.number x :: Token.number y :: rest =>
    let px := (x : ℝ) + (if relative then st.px else 0)
    let py := (y : ℝ) + (if relative then st.py else 0)
    lLoop relative
      { st with px := px, py := py, sx := px, sy := py,
                commands := st.commands ++ [Command.MoveTo px py] } rest
  | _ => .error .number

end

theorem lLoop_length_aux (relative : Bool) :
    ∀ (n : ℕ) (ts : List Token), ts.length ≤ n → ∀ st st' ts',
      lLoop relative st ts = .ok (st', ts') → ts'.length ≤ ts.length := by
  intro n
  induction n with
  | zero =>
    intro ts hle st st' ts' h
    have hnil : ts = [] := List.eq_nil_of_length_eq_zero (by omega)
    subst hnil
    simp [lLoop] at h
    obtain ⟨-, rfl⟩ := h
    simp
  | succ n ih =>
    intro ts hle st st' ts' h
    rw [lLoop.eq_def] at h
    split at h
    · rename_i x y rest
      have hr : rest.length ≤ n := by
        simp only [List.length_cons] at hle
        omega
      have := ih rest hr _ _ _ h
      simp only [List.length_cons]
      omega
    · exact absurd h (by simp)
    · simp only [Except.ok.injEq, Prod.mk.injEq] at h
      obtain ⟨-, rfl⟩ := h
      exact le_rfl

theorem lLoop_length {relative : Bool} {st st' : PState} {ts ts' : List Token}
    (h : lLoop relative st ts = .ok (st', ts')) : ts'.length ≤ ts.length :=
  lLoop_length_aux relative ts.length ts le_rfl st st' ts' h

theorem hLoop_length_aux (relative : Bool) :
    ∀ (n : ℕ) (ts : List Token), ts.length ≤ n → ∀ st st' ts',
      hLoop relative st ts = .ok (st', ts') → ts'.length ≤ ts.length := by
  intro n
  induction n with
  | zero =>
    intro ts hle st st' ts' h
    have hnil : ts = [] := List.eq_nil_of_length_eq_zero (by omega)
    subst hnil
    simp [hLoop] at h
    obtain ⟨-, rfl⟩ := h
    simp
  | succ n ih =>
    intro ts hle st st' ts' h
    rw [hLoop.eq_def] at h
    split at h
    · rename_i x rest
      have hr : rest.length ≤ n := by
        simp only [List.length_cons] at hle
        omega
      have := ih rest hr _ _ _ h
      simp only [List.length_cons]
      omega
    · simp only [Except.ok.injEq, Prod.mk.injEq] at h
      obtain ⟨-, rfl⟩ := h
      exact le_rfl

theorem hLoop_length {relative : Bool} {st st' : PState} {ts ts' : List Token}
    (h : hLoop relative st ts = .ok (st', ts')) : ts'.length ≤ ts.length :=
  hLoop_length_aux relative ts.length ts le_rfl st st' ts' h

theorem vLoop_length_aux (relative : Bool) :
    ∀ (n : ℕ) (ts : List Token), ts.length ≤ n → ∀ st st' ts',
      vLoop relative st ts = .ok (st', ts') → ts'.length ≤ ts.length := by
  intro n
  induction n with
  | zero =>
    intro ts hle st st' ts' h
    have hnil : ts = [] := List.eq_nil_of_length_eq_zero (by omega)
    subst hnil
    simp [vLoop] at h
    obtain ⟨-, rfl⟩ := h
    simp
  | succ n ih =>
    intro ts hle st st' ts' h
    rw [vLoop.eq_def] at h
    split at h
    · rename_i y rest
      have hr : rest.length ≤ n := by
        simp only [List.length_cons] at hle
        omega
      have := ih rest hr _ _ _ h
      simp only [List.length_cons]
      omega
    · simp only [Except.ok.injEq, Prod.mk.injEq] at h
      obtain ⟨-, rfl⟩ := h
      exact le_rfl

theorem vLoop_length {relative : Bool} {st st' : PState} {ts ts' : List Token}
    (h : vLoop relative st ts = .ok (st', ts')) : ts'.length ≤ ts.length :=
  vLoop_length_aux relative ts.length ts le_rfl st st' ts' h

theorem cLoop_length_aux (relative : Bool) :
    ∀ (n : ℕ) (ts : List Token), ts.length ≤ n → ∀ st st' ts',
      cLoop relative st ts = .ok (st', ts') → ts'.length ≤ ts.length := by
  intro n
  induction n with
  | zero =>
    intro ts hle st st' ts' h
    have hnil : ts = [] := List.eq_nil_of_length_eq_zero (by omega)
    subst hnil
    simp [cLoop] at h
    obtain ⟨-, rfl⟩ := h
    simp
  | succ n ih =>
    intro ts hle st st' ts' h
    rw [cLoop.eq_def] at h
    split at h
    · rename_i x1 y1 x2 y2 x y rest
      have hr : rest.length ≤ n := by
        simp only [List.length_cons] at hle
        omega
      have := ih rest hr _ _ _ h
      simp only [List.length_cons]
      omega
    · exact absurd h (by simp)
    · simp only [Except.ok.injEq, Prod.mk.injEq] at h
      obtain ⟨-, rfl⟩ := h
      exact le_rfl

theorem cLoop_length {relative : Bool} {st st' : PState} {ts ts' : List Token}
    (h : cLoop relative st ts = .ok (st', ts')) : ts'.length ≤ ts.length :=
  cLoop_length_aux relative ts.length ts le_rfl st st' ts' h

theorem sLoop_length_aux (relative : Bool) :
    ∀ (n : ℕ) (ts : List Token), ts.length ≤ n → ∀ st st' ts',
      sLoop relative st ts = .ok (st', ts') → ts'.length ≤ ts.length := by
  intro n
  induction n with
  | zero =>
    intro ts hle st st' ts' h
    have hnil : ts = [] := List.eq_nil_of_length_eq_zero (by omega)
    subst hnil
    simp [sLoop] at h
    obtain ⟨-, rfl⟩ := h
    simp
  | succ n ih =>
    intro ts hle st st' ts' h
    rw [sLoop.eq_def] at h
    split at h
    · rename_i x2 y2 x y rest
      have hr : rest.length ≤ n := by
        simp only [List.length_cons] at hle
        omega
      have := ih rest hr _ _ _ h
      simp only [List.length_cons]
      omega
    · exact absurd h (by simp)
    · simp only [Except.ok.injEq, Prod.mk.injEq] at h
      obtain ⟨-, rfl⟩ := h
      exact le_rfl

theorem sLoop_length {relative : Bool} {st st' : PState} {ts ts' : List Token}
    (h : sLoop relative st ts = .ok (st', ts')) : ts'.length ≤ ts.length :=
  sLoop_length_aux relative ts.length ts le_rfl st st' ts' h

theorem qLoop_length_aux (relative : Bool) :
    ∀ (n : ℕ) (ts : List Token), ts.length ≤ n → ∀ st st' ts',
      qLoop relative st ts = .ok (st', ts') → ts'.length ≤ ts.length := by
  intro n
  induction n with
  | zero =>
    intro ts hle st st' ts' h
    have hnil : ts = [] := List.eq_nil_of_length_eq_zero (by omega)
    subst hnil
    simp [qLoop] at h
    obtain ⟨-, rfl⟩ := h
    simp
  | succ n ih =>
    intro ts hle st st' ts' h
    rw [qLoop.eq_def] at h
    split at h
    · rename_i x1 y1 x y rest
      have hr : rest.length ≤ n := by
        simp only [List.length_cons] at hle
        omega
      have := ih rest hr _ _ _ h
      simp only [List.length_cons]
      omega
    · exact absurd h (by simp)
    · simp only [Except.ok.injEq, Prod.mk.injEq] at h
      obtain ⟨-, rfl⟩ := h
      exact le_rfl

theorem qLoop_length {relative : Bool} {st st' : PState} {ts ts' : List Token}
    (h : qLoop relative st ts = .ok (st', ts')) : ts'.length ≤ ts.length :=
  qLoop_length_aux relative ts.length ts le_rfl st st' ts' h

theorem tLoop_length_aux (relative : Bool) :
    ∀ (n : ℕ) (ts : List Token), ts.length ≤ n → ∀ st st' ts',
      tLoop relative st ts = .ok (st', ts') → ts'.length ≤ ts.length := by
  intro n
  induction n with
  | zero =>
    intro ts hle st st' ts' h
    have hnil : ts = [] := List.eq_nil_of_length_eq_zero (by omega)
    subst hnil
    simp [tLoop] at h
    obtain ⟨-, rfl⟩ := h
    simp
  | succ n ih =>
    intro ts hle st st' ts' h
    rw [tLoop.eq_def] at h
    split at h
    · rename_i x y rest
      have hr : rest.length ≤ n := by
        simp only [List.length_cons] at hle
        omega
      have := ih rest hr _ _ _ h
      simp only [List.length_cons]
      omega
    · exact absurd h (by simp)
    · simp only [Except.ok.injEq, Prod.mk.injEq] at h
      obtain ⟨-, rfl⟩ := h
      exact le_rfl

theorem tLoop_length {relative : Bool} {st st' : PState} {ts ts' : List Token}
    (h : tLoop relative st ts = .ok (st', ts')) : ts'.length ≤ ts.length :=
  tLoop_length_aux relative ts.length ts le_rfl st st' ts' h

theorem aLoop_length_aux (relative : Bool) :
    ∀ (n : ℕ) (ts : List Token), ts.length ≤ n → ∀ st st' ts',
      aLoop relative st ts = .ok (st', ts') → ts'.length ≤ ts.length := by
  intro n
  induction n with
  | zero =>
    intro ts hle st st' ts' h
    have hnil : ts = [] := List.eq_nil_of_length_eq_zero (by omega)
    subst hnil
    simp [aLoop] at h
    obtain ⟨-, rfl⟩ := h
    simp
  | succ n ih =>
    intro ts hle st st' ts' h
    rw [aLoop.eq_def] at h
    split at h
    · rename_i rx ry rot laf sf x y rest
      have hr : rest.length ≤ n := by
        simp only [List.length_cons] at hle
        omega
      have := ih rest hr _ _ _ h
      simp only [List.length_cons]
      omega
    · exact absurd h (by simp)
    · simp only [Except.ok.injEq, Prod.mk.injEq] at h
      obtain ⟨-, rfl⟩ := h
      exact le_rfl

theorem aLoop_length {relative : Bool} {st st' : PState} {ts ts' : List Token}
    (h : aLoop relative st ts = .ok (st', ts')) : ts'.length ≤ ts.length :=
  aLoop_length_aux relative ts.length ts le_rfl st st' ts' h

theorem mStep_length {relative : Bool} {st st' : PState} {ts ts' : List Token}
    (h : mStep relative st ts = .ok (st', ts')) : ts'.length ≤ ts.length := by
  rw [mStep.eq_def] at h
  split at h
  · rename_i x y rest
    have := lLoop_length h
    simp only [List.length_cons] at *
    omega
  · cases h


noncomputable section

/-- One arm of the command dispatch in Parser::parse.  Z consumes no tokens:
it resets the current point to the subpath start and emits a ClosePath. -/
def stepCmd (c : Cmd) (relative : Bool) (st : PState) (ts : List Token) :
    Except Expected (PState × List Token) :=
  match c with
  | Cmd.M => mStep relative st ts
  | Cmd.L => lLoop relative st ts
  | Cmd.H => hLoop relative st ts
  | Cmd.V => vLoop relative st ts
  | Cmd.C => cLoop relative st ts
  | Cmd.S => sLoop relative st ts
  | Cmd.Q => qLoop relative st ts
  | Cmd.T => tLoop relative st ts
  | Cmd.A => aLoop relative st ts
  | Cmd.Z => .ok ({ st with px := st.sx, py := st.sy,
                            commands := st.commands ++ [Command.ClosePath] }, ts)

theorem stepCmd_length {c : Cmd} {relative : Bool} {st st' : PState}
    {ts ts' : List Token} (h : stepCmd c relative st ts = .ok (st', ts')) :
    ts'.length ≤ ts.length := by
  cases c <;> simp only [stepCmd] at h
  · exact mStep_length h
  · exact lLoop_length h
  · exact hLoop_length h
  · exact vLoop_length h
  · exact cLoop_length h
  · exact sLoop_length h
  · exact qLoop_length h
  · exact tLoop_length h
  · exact aLoop_length h
  · simp only [Except.ok.injEq, Prod.mk.injEq] at h
    obtain ⟨-, rfl⟩ := h
    exact le_rfl

/-- Parser::parse — the main loop: `while let Some(Ok(token)) = lexer.next()`.
A lexing-error item therefore ends the loop and the accumulated commands are
returned as success; a number where a command letter was expected is the
"expected command" failure; after a successful command step the previous
command letter is recorded. -/
def runParse (st : PState) (ts : List Token) : Except Expected (List Command) :=
  match ts with
  | [] => .ok st.commands
  | Token.err :: _ => .ok st.commands
  | Token.number _ :: _ => .error .command
  | Token.command c rel :: rest =>
    match hs : stepCmd c rel st rest with
    | .error e => .error e
    | .ok sr => runParse { sr.1 with last_command := some c } sr.2
termination_by ts.length
decreasing_by
  have hsr : stepCmd c rel st rest = .ok (sr.1, sr.2) := by
    rw [hs]
  have := stepCmd_length hsr
  simp only [List.length_cons]
  omega

/-- parse_path_str / Parser::parse over a source string with the default
configuration. -/
def parse_path_str (src : String) : Except Expected (List Command) :=
  runParse initState (tokenize src.data)

theorem runParse_nil (st : PState) : runParse st [] = .ok st.commands := by
  rw [runParse]

theorem runParse_err (st : PState) (rest : List Token) :
    runParse st (Token.err :: rest) = .ok st.commands := by
  rw [runParse]

theorem runParse_number (st : PState) (q : ℚ) (rest : List Token) :
    runParse st (Token.number q :: rest) = .error .command := by
  rw [runParse]

theorem runParse_cmd_ok {c : Cmd} {rel : Bool} {st st' : PState}
    {rest rest' : List Token} (h : stepCmd c rel st rest = .ok (st', rest')) :
    runParse st (Token.command c rel :: rest) =
      runParse { st' with last_command := some c } rest' := by
  rw [runParse]
  split
  · rename_i e heq
    rw [h] at heq
    cases heq
  · rename_i sr heq
    rw [h] at heq
    cases heq
    rfl

theorem runParse_cmd_error {c : Cmd} {rel : Bool} {st : PState}
    {rest : List Token} {e : Expected}
    (h : stepCmd c rel st rest = .error e) :
    runParse st (Token.command c rel :: rest) = .error e := by
  rw [runParse]
  split
  · rename_i e2 heq
    rw [h] at heq
    cases heq
    rfl
  · rename_i sr heq
    rw [h] at heq
    cases heq

end

theorem tok_ex_m_implicit :
    tokenize "M 0 0 10 10 20 5".data =
      [Token.command Cmd.M false, Token.number 0, Token.number 0,
       Token.number 10, Token.number 10, Token.number 20, Token.number 5] := by
  have hd : "M 0 0 10 10 20 5".data =
      ['M', ' ', '0', ' ', '0', ' ', '1', '0', ' ', '1', '0', ' ', '2', '0',
       ' ', '5'] := rfl
  rw [hd]
  simp [tokenize, matchNumber, takeNeg, takeIntPart, takeFracPart, takeDigits,
    numValue, digitsToNat, isSep, Cmd.map]

theorem parse_ex_m_implicit :
    parse_path_str "M 0 0 10 10 20 5" =
      .ok [Command.MoveTo 0 0, Command.LineTo 10 10, Command.LineTo 20 5] := by
  have h1 : stepCmd Cmd.M false initState
      [Token.number 0, Token.number 0, Token.number 10, Token.number 10,
       Token.number 20, Token.number 5] =
      .ok ({ px := 20, py := 5, cx := 0, cy := 0, sx := 0, sy := 0,
             bezier_steps := 16, last_command := none,
             commands := [Command.MoveTo 0 0, Command.LineTo 10 10,
               Command.LineTo 20 5] }, []) := by
    simp [stepCmd, mStep, lLoop, initState]
  rw [parse_path_str, tok_ex_m_implicit, runParse_cmd_ok h1, runParse_nil]

theorem tok_ex_smooth :
    tokenize "M 0 0 C 0 10 10 10 10 0 S 20 -10 20 0".data =
      [Token.command Cmd.M false, Token.number 0, Token.number 0,
       Token.command Cmd.C false, Token.number 0, Token.number 10,
       Token.number 10, Token.number 10, Token.number 10, Token.number 0,
       Token.command Cmd.S false, Token.number 20, Token.number (-10),
       Token.number 20, Token.number 0] := by
  have hd : "M 0 0 C 0 10 10 10 10 0 S 20 -10 20 0".data =
      ['M', ' ', '0', ' ', '0', ' ', 'C', ' ', '0', ' ', '1', '0', ' ', '1',
       '0', ' ', '1', '0', ' ', '1', '0', ' ', '0', ' ', 'S', ' ', '2', '0',
       ' ', '-', '1', '0', ' ', '2', '0', ' ', '0'] := rfl
  rw [hd]
  simp [tokenize, matchNumber, takeNeg, takeIntPart, takeFracPart, takeDigits,
    numValue, digitsToNat, isSep, Cmd.map]

theorem tok_ex_degenerate_arc :
    tokenize "M 1 2 A 0 5 0 0 0 9 9 l 1 1".data =
      [Token.command Cmd.M false, Token.number 1, Token.number 2,
       Token.command Cmd.A false, Token.number 0, Token.number 5,
       Token.number 0, Token.number 0, Token.number 0, Token.number 9,
       Token.number 9, Token.command Cmd.L true, Token.number 1,
       Token.number 1] := by
  have hd : "M 1 2 A 0 5 0 0 0 9 9 l 1 1".data =
      ['M', ' ', '1', ' ', '2', ' ', 'A', ' ', '0', ' ', '5', ' ', '0', ' ',
       '0', ' ', '0', ' ', '9', ' ', '9', ' ', 'l', ' ', '1', ' ', '1'] := rfl
  rw [hd]
  simp [tokenize, matchNumber, takeNeg, takeIntPart, takeFracPart, takeDigits,
    numValue, digitsToNat, isSep, Cmd.map]

theorem tok_ex_close_abs :
    tokenize "M 5 5 L 20 20 Z L 1 1".data =
      [Token.command Cmd.M false, Token.number 5, Token.number 5,
       Token.command Cmd.L false, Token.number 20, Token.number 20,
       Token.command Cmd.Z false, Token.command Cmd.L false,
       Token.number 1, Token.number 1] := by
  have hd : "M 5 5 L 20 20 Z L 1 1".data =
      ['M', ' ', '5', ' ', '5', ' ', 'L', ' ', '2', '0', ' ', '2', '0', ' ',
       'Z', ' ', 'L', ' ', '1', ' ', '1'] := rfl
  rw [hd]
  simp [tokenize, matchNumber, takeNeg, takeIntPart, takeFracPart, takeDigits,
    numValue, digitsToNat, isSep, Cmd.map]

theorem tok_ex_close_rel :
    tokenize "M 5 5 L 20 20 Z l 1 1".data =
      [Token.command Cmd.M false, Token.number 5, Token.number 5,
       Token.command Cmd.L false, Token.number 20, Token.number 20,
       Token.command Cmd.Z false, Token.command Cmd.L true,
       Token.number 1, Token.number 1] := by
  have hd : "M 5 5 L 20 20 Z l 1 1".data =
      ['M', ' ', '5', ' ', '5', ' ', 'L', ' ', '2', '0', ' ', '2', '0', ' ',
       'Z', ' ', 'l', ' ', '1', ' ', '1'] := rfl
  rw [hd]
  simp [tokenize, matchNumber, takeNeg, takeIntPart, takeFracPart, takeDigits,
    numValue, digitsToNat, isSep, Cmd.map]

theorem tok_ex_bad_letter :
    tokenize "M 0 0 X 5 5".data =
      [Token.command Cmd.M false, Token.number 0, Token.number 0,
       Token.err, Token.number 5, Token.number 5] := by
  have hd : "M 0 0 X 5 5".data =
      ['M', ' ', '0', ' ', '0', ' ', 'X', ' ', '5', ' ', '5'] := rfl
  rw [hd]
  simp [tokenize, matchNumber, takeNeg, takeIntPart, takeFracPart, takeDigits,
    numValue, digitsToNat, isSep, Cmd.map]

theorem tok_ex_bad_letter_num :
    tokenize "M 0 X 5 5".data =
      [Token.command Cmd.M false, Token.number 0,
       Token.err, Token.number 5, Token.number 5] := by
  have hd : "M 0 X 5 5".data =
      ['M', ' ', '0', ' ', 'X', ' ', '5', ' ', '5'] := rfl
  rw [hd]
  simp [tokenize, matchNumber, takeNeg, takeIntPart, takeFracPart, takeDigits,
    numValue, digitsToNat, isSep, Cmd.map]

theorem tok_ex_missing_y :
    tokenize "M 1".data = [Token.command Cmd.M false, Token.number 1] := by
  have hd : "M 1".data = ['M', ' ', '1'] := rfl
  rw [hd]
  simp [tokenize, matchNumber, takeNeg, takeIntPart, takeFracPart, takeDigits,
    numValue, digitsToNat, isSep, Cmd.map]

theorem tok_ex_bare_numbers :
    tokenize "5 5".data = [Token.number 5, Token.number 5] := by
  have hd : "5 5".data = ['5', ' ', '5'] := rfl
  rw [hd]
  simp [tokenize, matchNumber, takeNeg, takeIntPart, takeFracPart, takeDigits,
    numValue, digitsToNat, isSep, Cmd.map]

theorem runParse_cmd_step (st2 : PState) {c : Cmd} {rel : Bool}
    {st st' : PState} {rest rest' : List Token}
    (h : stepCmd c rel st rest = .ok (st', rest'))
    (h2 : ({ st' with last_command := some c } : PState) = st2) :
    runParse st (Token.command c rel :: rest) = runParse st2 rest' := by
  rw [runParse_cmd_ok h, h2]

theorem parse_ex_smooth :
    parse_path_str "M 0 0 C 0 10 10 10 10 0 S 20 -10 20 0" =
      .ok [Command.MoveTo 0 0, Command.CurveTo 0 10 10 10 10 0,
        Command.SmoothCurveTo 10 (-10) 20 (-10) 20 0] := by
  have h1 : stepCmd Cmd.M false initState
      [Token.number 0, Token.number 0,
       Token.command Cmd.C false, Token.number 0, Token.number 10,
       Token.number 10, Token.number 10, Token.number 10, Token.number 0,
       Token.command Cmd.S false, Token.number 20, Token.number (-10),
       Token.number 20, Token.number 0] =
      .ok ({ px := 0, py := 0, cx := 0, cy := 0, sx := 0, sy := 0,
             bezier_steps := 16, last_command := none,
             commands := [Command.MoveTo 0 0] },
        [Token.command Cmd.C false, Token.number 0, Token.number 10,
         Token.number 10, Token.number 10, Token.number 10, Token.number 0,
         Token.command Cmd.S false, Token.number 20, Token.number (-10),
         Token.number 20, Token.number 0]) := by
    simp [stepCmd, mStep, lLoop, initState]
  have h2 : stepCmd Cmd.C false
      { px := 0, py := 0, cx := 0, cy := 0, sx := 0, sy := 0,
        bezier_steps := 16, last_command := some Cmd.M,
        commands := [Command.MoveTo 0 0] }
      [Token.number 0, Token.number 10,
       Token.number 10, Token.number 10, Token.number 10, Token.number 0,
       Token.command Cmd.S false, Token.number 20, Token.number (-10),
       Token.number 20, Token.number 0] =
      .ok ({ px := 10, py := 0, cx := 10, cy := 10, sx := 0, sy := 0,
             bezier_steps := 16, last_command := some Cmd.M,
             commands := [Command.MoveTo 0 0,
               Command.CurveTo 0 10 10 10 10 0] },
        [Token.command Cmd.S false, Token.number 20, Token.number (-10),
         Token.number 20, Token.number 0]) := by
    simp [stepCmd, cLoop]
  have h3 : stepCmd Cmd.S false
      { px := 10, py := 0, cx := 10, cy := 10, sx := 0, sy := 0,
        bezier_steps := 16, last_command := some Cmd.C,
        commands := [Command.MoveTo 0 0, Command.CurveTo 0 10 10 10 10 0] }
      [Token.number 20, Token.number (-10), Token.number 20, Token.number 0] =
      .ok ({ px := 20, py := 0, cx := 20, cy := -10, sx := 0, sy := 0,
             bezier_steps := 16, last_command := some Cmd.C,
             commands := [Command.MoveTo 0 0, Command.CurveTo 0 10 10 10 10 0,
               Command.SmoothCurveTo 10 (-10) 20 (-10) 20 0] }, []) := by
    simp [stepCmd, sLoop]
  rw [parse_path_str, tok_ex_smooth,
    runParse_cmd_step
      { px := 0, py := 0, cx := 0, cy := 0, sx := 0, sy := 0,
        bezier_steps := 16, last_command := some Cmd.M,
        commands := [Command.MoveTo 0 0] } h1 rfl,
    runParse_cmd_step
      { px := 10, py := 0, cx := 10, cy := 10, sx := 0, sy := 0,
        bezier_steps := 16, last_command := some Cmd.C,
        commands := [Command.MoveTo 0 0, Command.CurveTo 0 10 10 10 10 0] }
      h2 rfl,
    runParse_cmd_step
      { px := 20, py := 0, cx := 20, cy := -10, sx := 0, sy := 0,
        bezier_steps := 16, last_command := some Cmd.S,
        commands := [Command.MoveTo 0 0, Command.CurveTo 0 10 10 10 10 0,
          Command.SmoothCurveTo 10 (-10) 20 (-10) 20 0] } h3 rfl,
    runParse_nil]

/-- A zero radius (after abs) short-circuits the arc solver to None. -/
theorem calculate_ellipse_parameters_zero_radius {x0 y0 x y rx ry phi : ℝ}
    {laf sf : Bool} (h : rx = 0 ∨ ry = 0) :
    calculate_ellipse_parameters x0 y0 x y rx ry phi laf sf = none := by
  rw [calculate_ellipse_parameters]
  rcases h with h | h <;> simp [h]

theorem parse_ex_degenerate_arc :
    parse_path_str "M 1 2 A 0 5 0 0 0 9 9 l 1 1" =
      .ok [Command.MoveTo 1 2, Command.LineTo 10 10] := by
  have h1 : stepCmd Cmd.M false initState
      [Token.number 1, Token.number 2,
       Token.command Cmd.A false, Token.number 0, Token.number 5,
       Token.number 0, Token.number 0, Token.number 0, Token.number 9,
       Token.number 9, Token.command Cmd.L true, Token.number 1,
       Token.number 1] =
      .ok ({ px := 1, py := 2, cx := 0, cy := 0, sx := 1, sy := 2,
             bezier_steps := 16, last_command := none,
             commands := [Command.MoveTo 1 2] },
        [Token.command Cmd.A false, Token.number 0, Token.number 5,
         Token.number 0, Token.number 0, Token.number 0, Token.number 9,
         Token.number 9, Token.command Cmd.L true, Token.number 1,
         Token.number 1]) := by
    simp [stepCmd, mStep, lLoop, initState]
  have h2 : stepCmd Cmd.A false
      { px := 1, py := 2, cx := 0, cy := 0, sx := 1, sy := 2,
        bezier_steps := 16, last_command := some Cmd.M,
        commands := [Command.MoveTo 1 2] }
      [Token.number 0, Token.number 5,
       Token.number 0, Token.number 0, Token.number 0, Token.number 9,
       Token.number 9, Token.command Cmd.L true, Token.number 1,
       Token.number 1] =
      .ok ({ px := 9, py := 9, cx := 9, cy := 9, sx := 1, sy := 2,
             bezier_steps := 16, last_command := some Cmd.M,
             commands := [Command.MoveTo 1 2] },
        [Token.command Cmd.L true, Token.number 1, Token.number 1]) := by
    have hnone : calculate_ellipse_parameters 1 2 9 9 0 5 0 false false = none :=
      calculate_ellipse_parameters_zero_radius (Or.inl rfl)
    simp [stepCmd, aLoop, hnone]
  have h3 : stepCmd Cmd.L true
      { px := 9, py := 9, cx := 9, cy := 9, sx := 1, sy := 2,
        bezier_steps := 16, last_command := some Cmd.A,
        commands := [Command.MoveTo 1 2] }
      [Token.number 1, Token.number 1] =
      .ok ({ px := 10, py := 10, cx := 9, cy := 9, sx := 1, sy := 2,
             bezier_steps := 16, last_command := some Cmd.A,
             commands := [Command.MoveTo 1 2, Command.LineTo 10 10] }, []) := by
    simp [stepCmd, lLoop]
    norm_num
  rw [parse_path_str, tok_ex_degenerate_arc,
    runParse_cmd_step
      { px := 1, py := 2, cx := 0, cy := 0, sx := 1, sy := 2,
        bezier_steps := 16, last_command := some Cmd.M,
        commands := [Command.MoveTo 1 2] } h1 rfl,
    runParse_cmd_step
      { px := 9, py := 9, cx := 9, cy := 9, sx := 1, sy := 2,
        bezier_steps := 16, last_command := some Cmd.A,
        commands := [Command.MoveTo 1 2] } h2 rfl,
    runParse_cmd_step
      { px := 10, py := 10, cx := 9, cy := 9, sx := 1, sy := 2,
        bezier_steps := 16, last_command := some Cmd.L,
        commands := [Command.MoveTo 1 2, Command.LineTo 10 10] } h3 rfl,
    runParse_nil]

theorem parse_ex_close_abs :
    parse_path_str "M 5 5 L 20 20 Z L 1 1" =
      .ok [Command.MoveTo 5 5, Command.LineTo 20 20, Command.ClosePath,
        Command.LineTo 1 1] := by
  have h1 : stepCmd Cmd.M false initState
      [Token.number 5, Token.number 5, Token.command Cmd.L false,
       Token.number 20, Token.number 20, Token.command Cmd.Z false,
       Token.command Cmd.L false, Token.number 1, Token.number 1] =
      .ok ({ px := 5, py := 5, cx := 0, cy := 0, sx := 5, sy := 5,
             bezier_steps := 16, last_command := none,
             commands := [Command.MoveTo 5 5] },
        [Token.command Cmd.L false, Token.number 20, Token.number 20,
         Token.command Cmd.Z false, Token.command Cmd.L false,
         Token.number 1, Token.number 1]) := by
    simp [stepCmd, mStep, lLoop, initState]
  have h2 : stepCmd Cmd.L false
      { px := 5, py := 5, cx := 0, cy := 0, sx := 5, sy := 5,
        bezier_steps := 16, last_command := some Cmd.M,
        commands := [Command.MoveTo 5 5] }
      [Token.number 20, Token.number 20, Token.command Cmd.Z false,
       Token.command Cmd.L false, Token.number 1, Token.number 1] =
      .ok ({ px := 20, py := 20, cx := 0, cy := 0, sx := 5, sy := 5,
             bezier_steps := 16, last_command := some Cmd.M,
             commands := [Command.MoveTo 5 5, Command.LineTo 20 20] },
        [Token.command Cmd.Z false, Token.command Cmd.L false,
         Token.number 1, Token.number 1]) := by
    simp [stepCmd, lLoop]
  have h3 : stepCmd Cmd.Z false
      { px := 20, py := 20, cx := 0, cy := 0, sx := 5, sy := 5,
        bezier_steps := 16, last_command := some Cmd.L,
        commands := [Command.MoveTo 5 5, Command.LineTo 20 20] }
      [Token.command Cmd.L false, Token.number 1, Token.number 1] =
      .ok ({ px := 5, py := 5, cx := 0, cy := 0, sx := 5, sy := 5,
             bezier_steps := 16, last_command := some Cmd.L,
             commands := [Command.MoveTo 5 5, Command.LineTo 20 20,
               Command.ClosePath] },
        [Token.command Cmd.L false, Token.number 1, Token.number 1]) := by
    simp [stepCmd]
  have h4 : stepCmd Cmd.L false
      { px := 5, py := 5, cx := 0, cy := 0, sx := 5, sy := 5,
        bezier_steps := 16, last_command := some Cmd.Z,
        commands := [Command.MoveTo 5 5, Command.LineTo 20 20,
          Command.ClosePath] }
      [Token.number 1, Token.number 1] =
      .ok ({ px := 1, py := 1, cx := 0, cy := 0, sx := 5, sy := 5,
             bezier_steps := 16, last_command := some Cmd.Z,
             commands := [Command.MoveTo 5 5, Command.LineTo 20 20,
               Command.ClosePath, Command.LineTo 1 1] }, []) := by
    simp [stepCmd, lLoop]
  rw [parse_path_str, tok_ex_close_abs,
    runParse_cmd_step
      { px := 5, py := 5, cx := 0, cy := 0, sx := 5, sy := 5,
        bezier_steps := 16, last_command := some Cmd.M,
        commands := [Command.MoveTo 5 5] } h1 rfl,
    runParse_cmd_step
      { px := 20, py := 20, cx := 0, cy := 0, sx := 5, sy := 5,
        bezier_steps := 16, last_command := some Cmd.L,
        commands := [Command.MoveTo 5 5, Command.LineTo 20 20] } h2 rfl,
    runParse_cmd_step
      { px := 5, py := 5, cx := 0, cy := 0, sx := 5, sy := 5,
        bezier_steps := 16, last_command := some Cmd.Z,
        commands := [Command.MoveTo 5 5, Command.LineTo 20 20,
          Command.ClosePath] } h3 rfl,
    runParse_cmd_step
      { px := 1, py := 1, cx := 0, cy := 0, sx := 5, sy := 5,
        bezier_steps := 16, last_command := some Cmd.L,
        commands := [Command.MoveTo 5 5, Command.LineTo 20 20,
          Command.ClosePath, Command.LineTo 1 1] } h4 rfl,
    runParse_nil]

theorem parse_ex_close_rel :
    parse_path_str "M 5 5 L 20 20 Z l 1 1" =
      .ok [Command.MoveTo 5 5, Command.LineTo 20 20, Command.ClosePath,
        Command.LineTo 6 6] := by
  have h1 : stepCmd Cmd.M false initState
      [Token.number 5, Token.number 5, Token.command Cmd.L false,
       Token.number 20, Token.number 20, Token.command Cmd.Z false,
       Token.command Cmd.L true, Token.number 1, Token.number 1] =
      .ok ({ px := 5, py := 5, cx := 0, cy := 0, sx := 5, sy := 5,
             bezier_steps := 16, last_command := none,
             commands := [Command.MoveTo 5 5] },
        [Token.command Cmd.L false, Token.number 20, Token.number 20,
         Token.command Cmd.Z false, Token.command Cmd.L true,
         Token.number 1, Token.number 1]) := by
    simp [stepCmd, mStep, lLoop, initState]
  have h2 : stepCmd Cmd.L false
      { px := 5, py := 5, cx := 0, cy := 0, sx := 5, sy := 5,
        bezier_steps := 16, last_command := some Cmd.M,
        commands := [Command.MoveTo 5 5] }
      [Token.number 20, Token.number 20, Token.command Cmd.Z false,
       Token.command Cmd.L true, Token.number 1, Token.number 1] =
      .ok ({ px := 20, py := 20, cx := 0, cy := 0, sx := 5, sy := 5,
             bezier_steps := 16, last_command := some Cmd.M,
             commands := [Command.MoveTo 5 5, Command.LineTo 20 20] },
        [Token.command Cmd.Z false, Token.command Cmd.L true,
         Token.number 1, Token.number 1]) := by
    simp [stepCmd, lLoop]
  have h3 : stepCmd Cmd.Z false
      { px := 20, py := 20, cx := 0, cy := 0, sx := 5, sy := 5,
        bezier_steps := 16, last_command := some Cmd.L,
        commands := [Command.MoveTo 5 5, Command.LineTo 20 20] }
      [Token.command Cmd.L true, Token.number 1, Token.number 1] =
      .ok ({ px := 5, py := 5, cx := 0, cy := 0, sx := 5, sy := 5,
             bezier_steps := 16, last_command := some Cmd.L,
             commands := [Command.MoveTo 5 5, Command.LineTo 20 20,
               Command.ClosePath] },
        [Token.command Cmd.L true, Token.number 1, Token.number 1]) := by
    simp [stepCmd]
  have h4 : stepCmd Cmd.L true
      { px := 5, py := 5, cx := 0, cy := 0, sx := 5, sy := 5,
        bezier_steps := 16, last_command := some Cmd.Z,
        commands := [Command.MoveTo 5 5, Command.LineTo 20 20,
          Command.ClosePath] }
      [Token.number 1, Token.number 1] =
      .ok ({ px := 6, py := 6, cx := 0, cy := 0, sx := 5, sy := 5,
             bezier_steps := 16, last_command := some Cmd.Z,
             commands := [Command.MoveTo 5 5, Command.LineTo 20 20,
               Command.ClosePath, Command.LineTo 6 6] }, []) := by
    simp [stepCmd, lLoop]
    norm_num
  rw [parse_path_str, tok_ex_close_rel,
    runParse_cmd_step
      { px := 5, py := 5, cx := 0, cy := 0, sx := 5, sy := 5,
        bezier_steps := 16, last_command := some Cmd.M,
        commands := [Command.MoveTo 5 5] } h1 rfl,
    runParse_cmd_step
      { px := 20, py := 20, cx := 0, cy := 0, sx := 5, sy := 5,
        bezier_steps := 16, last_command := some Cmd.L,
        commands := [Command.MoveTo 5 5, Command.LineTo 20 20] } h2 rfl,
    runParse_cmd_step
      { px := 5, py := 5, cx := 0, cy := 0, sx := 5, sy := 5,
        bezier_steps := 16, last_command := some Cmd.Z,
        commands := [Command.MoveTo 5 5, Command.LineTo 20 20,
          Command.ClosePath] } h3 rfl,
    runParse_cmd_step
      { px := 6, py := 6, cx := 0, cy := 0, sx := 5, sy := 5,
        bezier_steps := 16, last_command := some Cmd.L,
        commands := [Command.MoveTo 5 5, Command.LineTo 20 20,
          Command.ClosePath, Command.LineTo 6 6] } h4 rfl,
    runParse_nil]

theorem parse_ex_bad_letter :
    parse_path_str "M 0 0 X 5 5" = .ok [Command.MoveTo 0 0] := by
  have h1 : stepCmd Cmd.M false initState
      [Token.number 0, Token.number 0, Token.err, Token.number 5,
       Token.number 5] =
      .ok ({ px := 0, py := 0, cx := 0, cy := 0, sx := 0, sy := 0,
             bezier_steps := 16, last_command := none,
             commands := [Command.MoveTo 0 0] },
        [Token.err, Token.number 5, Token.number 5]) := by
    simp [stepCmd, mStep, lLoop, initState]
  rw [parse_path_str, tok_ex_bad_letter,
    runParse_cmd_step
      { px := 0, py := 0, cx := 0, cy := 0, sx := 0, sy := 0,
        bezier_steps := 16, last_command := some Cmd.M,
        commands := [Command.MoveTo 0 0] } h1 rfl,
    runParse_err]

theorem parse_ex_bad_letter_num :
    parse_path_str "M 0 X 5 5" = .error Expected.number := by
  have h1 : stepCmd Cmd.M false initState
      [Token.number 0, Token.err, Token.number 5, Token.number 5] =
      .error Expected.number := by
    simp [stepCmd, mStep]
  rw [parse_path_str, tok_ex_bad_letter_num, runParse_cmd_error h1]

theorem parse_ex_missing_y :
    parse_path_str "M 1" = .error Expected.number := by
  have h1 : stepCmd Cmd.M false initState [Token.number 1] =
      .error Expected.number := by
    simp [stepCmd, mStep]
  rw [parse_path_str, tok_ex_missing_y, runParse_cmd_error h1]

theorem parse_ex_bare_numbers :
    parse_path_str "5 5" = .error Expected.command := by
  rw [parse_path_str, tok_ex_bare_numbers, runParse_number]

theorem tokenize_sep_nil :
    ∀ l : List Char, (∀ c ∈ l, isSep c = true) → tokenize l = [] := by
  intro l h
  induction l with
  | nil => rw [tokenize]
  | cons c cs ih =>
    rw [tokenize, if_pos (h c (by simp))]
    exact ih fun c2 hc2 => h c2 (by simp [hc2])

/-- Claim C10: parsing the empty string, or any string consisting only of
separator characters (spaces, commas, tabs, CR, LF), succeeds with the empty
command sequence — end of input before any command letter is success, not an
"expected command" failure. -/
theorem claim_separators_only_parse_ok (s : String)
    (h : ∀ c ∈ s.data, isSep c = true) : parse_path_str s = .ok [] := by
  rw [parse_path_str, tokenize_sep_nil s.data h, runParse_nil]
  rfl

theorem claim_separators_only_parse_ok_witness :
    ((∀ c ∈ "".data, isSep c = true) ∧ parse_path_str "" = .ok []) ∧
    ((∀ c ∈ " ,\t ".data, isSep c = true) ∧ parse_path_str " ,\t " = .ok []) :=
  ⟨⟨by decide, claim_separators_only_parse_ok "" (by decide)⟩,
   ⟨by decide, claim_separators_only_parse_ok " ,\t " (by decide)⟩⟩

/-- Claim C7: "M 1" (y missing after MoveTo committed to its argument group)
fails with the "expected a number" value, "5 5" (bare number where a command
letter or end of input was expected) fails with the "expected a command
letter" value, and these two are the only failure kinds. -/
theorem claim_failure_kinds :
    parse_path_str "M 1" = .error Expected.number ∧
    parse_path_str "5 5" = .error Expected.command ∧
    ∀ e : Expected, e = Expected.command ∨ e = Expected.number :=
  ⟨parse_ex_missing_y, parse_ex_bare_numbers, fun e => by cases e <;> simp⟩

/-- Claim C3: after consuming its own x,y pair (updating the current point
and the subpath start and emitting one MoveTo), MoveTo delegates the rest of
the group to the LineTo repetition loop with the same relative flag; in
particular "M 0 0 10 10 20 5" parses to exactly
[MoveTo(0,0), LineTo(10,10), LineTo(20,5)]. -/
theorem claim_moveto_implicit_lineto :
    (∀ (relative : Bool) (st : PState) (x y : ℚ) (ts : List Token),
      mStep relative st (Token.number x :: Token.number y :: ts) =
        lLoop relative
          { st with
              px := (x : ℝ) + (if relative then st.px else 0),
              py := (y : ℝ) + (if relative then st.py else 0),
              sx := (x : ℝ) + (if relative then st.px else 0),
              sy := (y : ℝ) + (if relative then st.py else 0),
              commands := st.commands ++
                [Command.MoveTo ((x : ℝ) + (if relative then st.px else 0))
                  ((y : ℝ) + (if relative then st.py else 0))] } ts) ∧
    parse_path_str "M 0 0 10 10 20 5" =
      .ok [Command.MoveTo 0 0, Command.LineTo 10 10, Command.LineTo 20 5] :=
  ⟨fun relative st x y ts => rfl, parse_ex_m_implicit⟩

/-- Claim C2: when a SmoothCubicCurveTo argument group is consumed, the
emitted SmoothCurveTo's incoming control point is the reflection of the
stored control point through the current point exactly when the previous
command letter was C or S, and the current point otherwise; the same rule
holds for SmoothQuadraticCurveTo gated on Q or T.  In particular
"M 0 0 C 0 10 10 10 10 0 S 20 -10 20 0" gives the S command the control
point (10,-10). -/
theorem claim_smooth_reflection :
    (∀ (relative : Bool) (st : PState) (x2 y2 x y : ℚ) (ts : List Token),
      ∃ st2 : PState,
        sLoop relative st (Token.number x2 :: Token.number y2 ::
          Token.number x :: Token.number y :: ts) = sLoop relative st2 ts ∧
        st2.commands = st.commands ++
          [Command.SmoothCurveTo
            (if st.last_command = some Cmd.C ∨ st.last_command = some Cmd.S
              then st.px + (st.px - st.cx) else st.px)
            (if st.last_command = some Cmd.C ∨ st.last_command = some Cmd.S
              then st.py + (st.py - st.cy) else st.py)
            ((x2 : ℝ) + (if relative then st.px else 0))
            ((y2 : ℝ) + (if relative then st.py else 0))
            ((x : ℝ) + (if relative then st.px else 0))
            ((y : ℝ) + (if relative then st.py else 0))]) ∧
    (∀ (relative : Bool) (st : PState) (x y : ℚ) (ts : List Token),
      ∃ st2 : PState,
        tLoop relative st (Token.number x :: Token.number y :: ts) =
          tLoop relative st2 ts ∧
        st2.commands = st.commands ++
          [Command.SmoothQuadraticBezierCurveTo
            (if st.last_command = some Cmd.Q ∨ st.last_command = some Cmd.T
              then st.px + (st.px - st.cx) else st.px)
            (if st.last_command = some Cmd.Q ∨ st.last_command = some Cmd.T
              then st.py + (st.py - st.cy) else st.py)
            ((x : ℝ) + (if relative then st.px else 0))
            ((y : ℝ) + (if relative then st.py else 0))]) ∧
    parse_path_str "M 0 0 C 0 10 10 10 10 0 S 20 -10 20 0" =
      .ok [Command.MoveTo 0 0, Command.CurveTo 0 10 10 10 10 0,
        Command.SmoothCurveTo 10 (-10) 20 (-10) 20 0] :=
  ⟨fun relative st x2 y2 x y ts => ⟨_, by rw [sLoop], rfl⟩,
   fun relative st x y ts => ⟨_, by rw [tLoop], rfl⟩,
   parse_ex_smooth⟩

/-- Claim C8: the Z command consumes no tokens, resets the current point to
the subpath start set by the last MoveTo and emits exactly one ClosePath;
in "M 5 5 L 20 20 Z L 1 1" parsing continues after Z from (5,5), not
(20,20), as the relative variant "... Z l 1 1" (which yields LineTo(6,6))
shows. -/
theorem claim_closepath_resets :
    (∀ (relative : Bool) (st : PState) (ts : List Token),
      runParse st (Token.command Cmd.Z relative :: ts) =
        runParse { st with px := st.sx, py := st.sy,
                           commands := st.commands ++ [Command.ClosePath],
                           last_command := some Cmd.Z } ts) ∧
    parse_path_str "M 5 5 L 20 20 Z L 1 1" =
      .ok [Command.MoveTo 5 5, Command.LineTo 20 20, Command.ClosePath,
        Command.LineTo 1 1] ∧
    parse_path_str "M 5 5 L 20 20 Z l 1 1" =
      .ok [Command.MoveTo 5 5, Command.LineTo 20 20, Command.ClosePath,
        Command.LineTo 6 6] := by
  refine ⟨?_, parse_ex_close_abs, parse_ex_close_rel⟩
  intro relative st ts
  have hz : stepCmd Cmd.Z relative st ts =
      .ok (⟨st.sx, st.sy, st.cx, st.cy, st.sx, st.sy, st.bezier_steps,
        st.last_command, st.commands ++ [Command.ClosePath]⟩, ts) := rfl
  exact (runParse_cmd_ok hz).trans rfl

/-- Claim C6: an EllipticalArc group whose rx or ry is zero appends no
commands, signals no error, and still moves the current point (and the
stored control point) to the arc endpoint resolved against the
relative/absolute offset; "M 1 2 A 0 5 0 0 0 9 9 l 1 1" yields only
MoveTo(1,2) and a LineTo resolved from the arc endpoint (9,9). -/
theorem claim_degenerate_arc (relative : Bool) (st : PState)
    (rx ry rot laf sf x y : ℚ) (ts : List Token) (h : rx = 0 ∨ ry = 0) :
    (∃ st2 : PState,
      aLoop relative st (Token.number rx :: Token.number ry ::
        Token.number rot :: Token.number laf :: Token.number sf ::
        Token.number x :: Token.number y :: ts) = aLoop relative st2 ts ∧
      st2.commands = st.commands ∧
      st2.px = (if relative then st.px else 0) + (x : ℝ) ∧
      st2.py = (if relative then st.py else 0) + (y : ℝ) ∧
      st2.cx = (if relative then st.px else 0) + (x : ℝ) ∧
      st2.cy = (if relative then st.py else 0) + (y : ℝ)) ∧
    parse_path_str "M 1 2 A 0 5 0 0 0 9 9 l 1 1" =
      .ok [Command.MoveTo 1 2, Command.LineTo 10 10] := by
  have hcast : ((rx : ℝ) = 0 ∨ (ry : ℝ) = 0) := by
    rcases h with h | h <;> [left; right] <;> simp [h]
  refine ⟨⟨{ st with
      px := (if relative then st.px else 0) + (x : ℝ),
      py := (if relative then st.py else 0) + (y : ℝ),
      cx := (if relative then st.px else 0) + (x : ℝ),
      cy := (if relative then st.py else 0) + (y : ℝ),
      commands := st.commands }, ?_, rfl, rfl, rfl, rfl, rfl⟩,
    parse_ex_degenerate_arc⟩
  rw [aLoop, calculate_ellipse_parameters_zero_radius hcast]

theorem claim_degenerate_arc_witness :
    ((0 : ℚ) = 0 ∨ (5 : ℚ) = 0) ∧
    ((∃ st2 : PState,
      aLoop false initState [Token.number 0, Token.number 5, Token.number 0,
        Token.number 0, Token.number 0, Token.number 9, Token.number 9] =
        aLoop false st2 [] ∧
      st2.commands = initState.commands ∧
      st2.px = (if false then initState.px else 0) + ((9 : ℚ) : ℝ) ∧
      st2.py = (if false then initState.py else 0) + ((9 : ℚ) : ℝ) ∧
      st2.cx = (if false then initState.px else 0) + ((9 : ℚ) : ℝ) ∧
      st2.cy = (if false then initState.py else 0) + ((9 : ℚ) : ℝ)) ∧
    parse_path_str "M 1 2 A 0 5 0 0 0 9 9 l 1 1" =
      .ok [Command.MoveTo 1 2, Command.LineTo 10 10]) :=
  ⟨Or.inl rfl,
   claim_degenerate_arc false initState 0 5 0 0 0 9 9 [] (Or.inl rfl)⟩

/-- Claim C1 counterexample: "M 0 0 X 5 5" contains the unrecognized letter
X, yet parse returns success with the partial command sequence [MoveTo(0,0)]
rather than any failure value. -/
theorem claim_lexing_error_counterexample :
    parse_path_str "M 0 0 X 5 5" = .ok [Command.MoveTo 0 0] ∧
    parse_path_str "M 0 0 X 5 5" ≠ .error Expected.command ∧
    parse_path_str "M 0 0 X 5 5" ≠ .error Expected.number := by
  refine ⟨parse_ex_bad_letter, ?_, ?_⟩ <;> rw [parse_ex_bad_letter] <;> simp

/-- Claim C1 (amended): an unrecognized letter fails tokenization, but the
parse loop treats the lexing-error item like end of input when it appears
where a command letter is expected: parsing stops and the commands built so
far are returned as success ("M 0 0 X 5 5" gives Ok [MoveTo(0,0)]).  Only
when the lexing-error item sits where a required number is expected does
parse return a failure ("M 0 X 5 5" gives the expected-number failure). -/
theorem claim_lexing_error_amended :
    (∀ c : Char, c.isAlpha = true → Cmd.map c = none →
      ∀ cs : List Char, tokenize (c :: cs) = Token.err :: tokenize cs) ∧
    (∀ (st : PState) (ts : List Token),
      runParse st (Token.err :: ts) = .ok st.commands) ∧
    parse_path_str "M 0 0 X 5 5" = .ok [Command.MoveTo 0 0] ∧
    parse_path_str "M 0 X 5 5" = .error Expected.number := by
  refine ⟨?_, runParse_err, parse_ex_bad_letter, parse_ex_bad_letter_num⟩
  intro c halpha hmap cs
  rw [tokenize]
  have hsep : isSep c = false := by
    revert halpha
    rw [isSep, Char.isAlpha, Char.isUpper, Char.isLower]
    rcases Decidable.em (c = ' ') with h | h
    · subst h
      decide
    rcases Decidable.em (c = ',') with h2 | h2
    · subst h2
      decide
    rcases Decidable.em (c = '\t') with h3 | h3
    · subst h3
      decide
    rcases Decidable.em (c = '\r') with h4 | h4
    · subst h4
      decide
    rcases Decidable.em (c = '\n') with h5 | h5
    · subst h5
      decide
    intro _
    simp [h, h2, h3, h4, h5]
  rw [hsep, if_neg (by simp), if_pos halpha, hmap]

theorem claim_lexing_error_amended_witness :
    ('X'.isAlpha = true) ∧ Cmd.map 'X' = none ∧
    tokenize ['X'] = Token.err :: tokenize [] :=
  ⟨by decide, by decide,
   claim_lexing_error_amended.1 'X' (by decide) (by decide) []⟩

theorem eliptical_segment_sq (x y rx ry a1 a2 cr sr sf : ℝ) (i : ℕ)
    (h : i ≠ 0) :
    eliptical_segment x y rx ry a1 a2 cr sr sf i =
      [Command.SmoothQuadraticBezierCurveTo
        (2 * (arc_sample_point x y rx ry cr sr
            ((seg_angle a1 a2 sf (i : ℝ) + seg_angle a1 a2 sf ((i : ℝ) + 1))
              * 0.5)).1
          - 0.5 * (arc_sample_point x y rx ry cr sr (seg_angle a1 a2 sf (i : ℝ))).1
          - 0.5 * (arc_sample_point x y rx ry cr sr
              (seg_angle a1 a2 sf ((i : ℝ) + 1))).1)
        (2 * (arc_sample_point x y rx ry cr sr
            ((seg_angle a1 a2 sf (i : ℝ) + seg_angle a1 a2 sf ((i : ℝ) + 1))
              * 0.5)).2
          - 0.5 * (arc_sample_point x y rx ry cr sr (seg_angle a1 a2 sf (i : ℝ))).2
          - 0.5 * (arc_sample_point x y rx ry cr sr
              (seg_angle a1 a2 sf ((i : ℝ) + 1))).2)
        (arc_sample_point x y rx ry cr sr (seg_angle a1 a2 sf ((i : ℝ) + 1))).1
        (arc_sample_point x y rx ry cr sr (seg_angle a1 a2 sf ((i : ℝ) + 1))).2] := by
  rw [eliptical_segment, if_neg h]
  simp only [List.nil_append]
  congr 2 <;> ring

theorem eliptical_segment_zero (x y rx ry a1 a2 cr sr sf : ℝ) :
    eliptical_segment x y rx ry a1 a2 cr sr sf 0 =
      [Command.LineTo
        (arc_sample_point x y rx ry cr sr (seg_angle a1 a2 sf ((0 : ℕ) : ℝ))).1
        (arc_sample_point x y rx ry cr sr (seg_angle a1 a2 sf ((0 : ℕ) : ℝ))).2,
       Command.SmoothQuadraticBezierCurveTo
        (2 * (arc_sample_point x y rx ry cr sr
            ((seg_angle a1 a2 sf ((0 : ℕ) : ℝ) + seg_angle a1 a2 sf (((0 : ℕ) : ℝ) + 1))
              * 0.5)).1
          - 0.5 * (arc_sample_point x y rx ry cr sr
              (seg_angle a1 a2 sf ((0 : ℕ) : ℝ))).1
          - 0.5 * (arc_sample_point x y rx ry cr sr
              (seg_angle a1 a2 sf (((0 : ℕ) : ℝ) + 1))).1)
        (2 * (arc_sample_point x y rx ry cr sr
            ((seg_angle a1 a2 sf ((0 : ℕ) : ℝ) + seg_angle a1 a2 sf (((0 : ℕ) : ℝ) + 1))
              * 0.5)).2
          - 0.5 * (arc_sample_point x y rx ry cr sr
              (seg_angle a1 a2 sf ((0 : ℕ) : ℝ))).2
          - 0.5 * (arc_sample_point x y rx ry cr sr
              (seg_angle a1 a2 sf (((0 : ℕ) : ℝ) + 1))).2)
        (arc_sample_point x y rx ry cr sr (seg_angle a1 a2 sf (((0 : ℕ) : ℝ) + 1))).1
        (arc_sample_point x y rx ry cr sr (seg_angle a1 a2 sf (((0 : ℕ) : ℝ) + 1))).2] := by
  rw [eliptical_segment, if_pos rfl]
  simp only [List.cons_append, List.nil_append]
  congr 2 <;> ring

theorem flatMap_eliptical (x y rx ry a1 a2 cr sr sf : ℝ) :
    ∀ n : ℕ, 1 ≤ n →
      (List.range n).flatMap (eliptical_segment x y rx ry a1 a2 cr sr sf) =
        Command.LineTo
          (arc_sample_point x y rx ry cr sr (seg_angle a1 a2 sf ((0 : ℕ) : ℝ))).1
          (arc_sample_point x y rx ry cr sr (seg_angle a1 a2 sf ((0 : ℕ) : ℝ))).2 ::
        (List.range n).map (fun (i : ℕ) =>
          Command.SmoothQuadraticBezierCurveTo
            (2 * (arc_sample_point x y rx ry cr sr
                ((seg_angle a1 a2 sf (i : ℝ) + seg_angle a1 a2 sf ((i : ℝ) + 1))
                  * 0.5)).1
              - 0.5 * (arc_sample_point x y rx ry cr sr
                  (seg_angle a1 a2 sf (i : ℝ))).1
              - 0.5 * (arc_sample_point x y rx ry cr sr
                  (seg_angle a1 a2 sf ((i : ℝ) + 1))).1)
            (2 * (arc_sample_point x y rx ry cr sr
                ((seg_angle a1 a2 sf (i : ℝ) + seg_angle a1 a2 sf ((i : ℝ) + 1))
                  * 0.5)).2
              - 0.5 * (arc_sample_point x y rx ry cr sr
                  (seg_angle a1 a2 sf (i : ℝ))).2
              - 0.5 * (arc_sample_point x y rx ry cr sr
                  (seg_angle a1 a2 sf ((i : ℝ) + 1))).2)
            (arc_sample_point x y rx ry cr sr (seg_angle a1 a2 sf ((i : ℝ) + 1))).1
            (arc_sample_point x y rx ry cr sr (seg_angle a1 a2 sf ((i : ℝ) + 1))).2) := by
  intro n hn
  induction n with
  | zero => omega
  | succ m ih =>
    by_cases hm : m = 0
    · subst hm
      rw [show List.range 1 = [0] from rfl]
      simp only [List.flatMap_cons, List.flatMap_nil, List.append_nil,
        List.map_cons, List.map_nil]
      rw [eliptical_segment_zero]
    · rw [List.range_succ, List.flatMap_append, ih (by omega), List.map_append]
      simp only [List.flatMap_cons, List.flatMap_nil, List.append_nil,
        List.map_cons, List.map_nil]
      rw [eliptical_segment_sq x y rx ry a1 a2 cr sr sf m hm]
      simp [List.cons_append]

/-- Claim C5: a call to the arc flattener with steps ≥ 1 appends exactly
1 + steps Drawing Commands: first one LineTo to the arc's first sampled
(rotated) point, then exactly steps SmoothQuadraticCurveTo segments, the
control point of segment i being 2*mid - 0.5*start - 0.5*end of the rotated
samples at the start, midpoint and end of its angular sub-interval. -/
theorem claim_arc_flattener (cmds : List Command)
    (x y rx ry angle1 angle2 rot : ℝ) (steps : ℤ) (h : 1 ≤ steps) :
    push_eliptical_cmds cmds x y rx ry angle1 angle2 rot steps =
      cmds ++
        Command.LineTo
          (arc_sample_point x y rx ry (Real.cos (toRadians rot))
            (Real.sin (toRadians rot))
            (seg_angle angle1 angle2 (steps : ℝ) ((0 : ℕ) : ℝ))).1
          (arc_sample_point x y rx ry (Real.cos (toRadians rot))
            (Real.sin (toRadians rot))
            (seg_angle angle1 angle2 (steps : ℝ) ((0 : ℕ) : ℝ))).2 ::
        (List.range steps.toNat).map (fun (i : ℕ) =>
          Command.SmoothQuadraticBezierCurveTo
            (2 * (arc_sample_point x y rx ry (Real.cos (toRadians rot))
                (Real.sin (toRadians rot))
                ((seg_angle angle1 angle2 (steps : ℝ) (i : ℝ) +
                  seg_angle angle1 angle2 (steps : ℝ) ((i : ℝ) + 1)) * 0.5)).1
              - 0.5 * (arc_sample_point x y rx ry (Real.cos (toRadians rot))
                  (Real.sin (toRadians rot))
                  (seg_angle angle1 angle2 (steps : ℝ) (i : ℝ))).1
              - 0.5 * (arc_sample_point x y rx ry (Real.cos (toRadians rot))
                  (Real.sin (toRadians rot))
                  (seg_angle angle1 angle2 (steps : ℝ) ((i : ℝ) + 1))).1)
            (2 * (arc_sample_point x y rx ry (Real.cos (toRadians rot))
                (Real.sin (toRadians rot))
                ((seg_angle angle1 angle2 (steps : ℝ) (i : ℝ) +
                  seg_angle angle1 angle2 (steps : ℝ) ((i : ℝ) + 1)) * 0.5)).2
              - 0.5 * (arc_sample_point x y rx ry (Real.cos (toRadians rot))
                  (Real.sin (toRadians rot))
                  (seg_angle angle1 angle2 (steps : ℝ) (i : ℝ))).2
              - 0.5 * (arc_sample_point x y rx ry (Real.cos (toRadians rot))
                  (Real.sin (toRadians rot))
                  (seg_angle angle1 angle2 (steps : ℝ) ((i : ℝ) + 1))).2)
            (arc_sample_point x y rx ry (Real.cos (toRadians rot))
              (Real.sin (toRadians rot))
              (seg_angle angle1 angle2 (steps : ℝ) ((i : ℝ) + 1))).1
            (arc_sample_point x y rx ry (Real.cos (toRadians rot))
              (Real.sin (toRadians rot))
              (seg_angle angle1 angle2 (steps : ℝ) ((i : ℝ) + 1))).2) ∧
    (push_eliptical_cmds cmds x y rx ry angle1 angle2 rot steps).length =
      cmds.length + 1 + steps.toNat := by
  have hn : 1 ≤ steps.toNat := by omega
  have hmain := flatMap_eliptical x y rx ry angle1 angle2
    (Real.cos (toRadians rot)) (Real.sin (toRadians rot)) (steps : ℝ)
    steps.toNat hn
  constructor
  · simp only [push_eliptical_cmds]
    rw [hmain]
  · simp only [push_eliptical_cmds]
    rw [hmain]
    simp only [List.length_append, List.length_cons, List.length_map,
      List.length_range]
    omega

theorem claim_arc_flattener_witness :
    (1 : ℤ) ≤ 1 ∧ (push_eliptical_cmds [] 0 0 1 1 0 1 0 1).length = 2 := by
  refine ⟨by norm_num, ?_⟩
  have := (claim_arc_flattener [] 0 0 1 1 0 1 0 1 (by norm_num)).2
  simpa using this

noncomputable section

/-- viewbox.rs: struct ViewBox — a source coordinate frame. -/
structure ViewBox where
  min_x : ℝ
  min_y : ℝ
  width : ℝ
  height : ℝ

/-- viewbox.rs: ViewBox::scale_x. -/
def ViewBox.scale_x (vb : ViewBox) (x w : ℝ) : ℝ :=
  (x - vb.min_x) * w / vb.width

/-- viewbox.rs: ViewBox::scale_y. -/
def ViewBox.scale_y (vb : ViewBox) (y h : ℝ) : ℝ :=
  (y - vb.min_y) * h / vb.height

/-- viewbox.rs: ViewBox::scale_cmd — map every coordinate of a command
through scale_x/scale_y; ClosePath carries none. -/
def ViewBox.scale_cmd (vb : ViewBox) (cmd : Command) (w h : ℝ) : Command :=
  match cmd with
  | Command.MoveTo x y => Command.MoveTo (vb.scale_x x w) (vb.scale_y y h)
  | Command.LineTo x y => Command.LineTo (vb.scale_x x w) (vb.scale_y y h)
  | Command.CurveTo x1 y1 x2 y2 x y =>
    Command.CurveTo (vb.scale_x x1 w) (vb.scale_y y1 h)
      (vb.scale_x x2 w) (vb.scale_y y2 h) (vb.scale_x x w) (vb.scale_y y h)
  | Command.ClosePath => Command.ClosePath
  | Command.SmoothCurveTo cx cy x2 y2 x y =>
    Command.SmoothCurveTo (vb.scale_x cx w) (vb.scale_y cy h)
      (vb.scale_x x2 w) (vb.scale_y y2 h) (vb.scale_x x w) (vb.scale_y y h)
  | Command.QuadraticBezierCurveTo x1 y1 x y =>
    Command.QuadraticBezierCurveTo (vb.scale_x x1 w) (vb.scale_y y1 h)
      (vb.scale_x x w) (vb.scale_y y h)
  | Command.SmoothQuadraticBezierCurveTo cx cy x y =>
    Command.SmoothQuadraticBezierCurveTo (vb.scale_x cx w) (vb.scale_y cy h)
      (vb.scale_x x w) (vb.scale_y y h)

/-- path.rs: struct Path — a command sequence plus the cached bounding-box
span (width, height). -/
structure Path where
  commands : List Command
  bb : ℝ × ℝ

/-- path.rs: Path::resize — non-uniform scale factors w/bb.0 and h/bb.1, a
ViewBox sized to undo them, every command remapped; the cached bb is not
recomputed. -/
def Path.resize (p : Path) (width height : ℝ) : Path :=
  let scalex := width / p.bb.1
  let scaley := height / p.bb.2
  let vb := ViewBox.mk 0 0 (p.bb.1 / scalex) (p.bb.2 / scaley)
  { p with commands :=
      p.commands.map (fun cmd => vb.scale_cmd cmd p.bb.1 p.bb.2) }

end

/-- Claim C9: for a Path whose cached bounding-box span has both components
nonzero (finiteness is implicit in the real-number model), resizing to the
cached span itself maps every coordinate of every command to itself — the
round-trip through the derived ViewBox is the identity on the command
list. -/
theorem claim_resize_roundtrip (p : Path) (h1 : p.bb.1 ≠ 0)
    (h2 : p.bb.2 ≠ 0) :
    (p.resize p.bb.1 p.bb.2).commands = p.commands := by
  have hcmd : ∀ cmd : Command,
      ViewBox.scale_cmd
        (ViewBox.mk 0 0 (p.bb.1 / (p.bb.1 / p.bb.1)) (p.bb.2 / (p.bb.2 / p.bb.2)))
        cmd p.bb.1 p.bb.2 = cmd := by
    intro cmd
    cases cmd <;>
      simp [ViewBox.scale_cmd, ViewBox.scale_x, ViewBox.scale_y,
        div_self h1, div_self h2, mul_div_cancel_right₀, h1, h2]
  have hres : (p.resize p.bb.1 p.bb.2).commands =
      p.commands.map (fun cmd =>
        ViewBox.scale_cmd
          (ViewBox.mk 0 0 (p.bb.1 / (p.bb.1 / p.bb.1))
            (p.bb.2 / (p.bb.2 / p.bb.2)))
          cmd p.bb.1 p.bb.2) := rfl
  rw [hres, List.map_congr_left fun a _ => hcmd a, List.map_id']

theorem claim_resize_roundtrip_witness :
    (((Path.mk [Command.LineTo 2 3] (2, 3)).bb.1 ≠ 0) ∧
     ((Path.mk [Command.LineTo 2 3] (2, 3)).bb.2 ≠ 0)) ∧
    ((Path.mk [Command.LineTo 2 3] (2, 3)).resize 2 3).commands =
      [Command.LineTo 2 3] :=
  ⟨⟨by norm_num, by norm_num⟩,
   claim_resize_roundtrip (Path.mk [Command.LineTo 2 3] (2, 3))
     (by norm_num) (by norm_num)⟩

/-- Scaling both radii by sqrt(radii_check) makes the check exactly 1. -/
theorem radii_check_scaled (x0 y0 x y rxa rya phi : ℝ)
    (hA : rxa ≠ 0) (hB : rya ≠ 0)
    (hpos : 0 < radii_check x0 y0 x y rxa rya phi) :
    radii_check x0 y0 x y
      (rxa * Real.sqrt (radii_check x0 y0 x y rxa rya phi))
      (rya * Real.sqrt (radii_check x0 y0 x y rxa rya phi)) phi = 1 := by
  have hRR := Real.mul_self_sqrt hpos.le
  have hne := ne_of_gt hpos
  rw [radii_check, radii_check]
  rw [radii_check] at hne hRR
  set X := arc_x1p x0 y0 x y phi
  set Y := arc_y1p x0 y0 x y phi
  set R := Real.sqrt (X * X / (rxa * rxa) + Y * Y / (rya * rya)) with hRdef
  rw [show rxa * R * (rxa * R) = rxa * rxa * (R * R) from by ring,
      show rya * R * (rya * R) = rya * rya * (R * R) from by ring, hRR]
  have hsum : X * X / (rxa * rxa) + Y * Y / (rya * rya) =
      (X * X * (rya * rya) + Y * Y * (rxa * rxa)) / (rxa * rxa * (rya * rya)) := by
    field_simp
  have hS : X * X * (rya * rya) + Y * Y * (rxa * rxa) ≠ 0 := by
    intro h0
    apply hne
    rw [hsum, h0, zero_div]
  field_simp
  ring

theorem arc_core_corrected (x0 y0 x y rxa rya phi : ℝ) (laf sf : Bool)
    (hA : 0 < rxa) (hB : 0 < rya)
    (hch : radii_check x0 y0 x y rxa rya phi > 1) :
    arc_core x0 y0 x y rxa rya phi laf sf =
      arc_core x0 y0 x y
        (rxa * Real.sqrt (radii_check x0 y0 x y rxa rya phi))
        (rya * Real.sqrt (radii_check x0 y0 x y rxa rya phi)) phi laf sf := by
  have hpos : (0 : ℝ) < radii_check x0 y0 x y rxa rya phi :=
    lt_trans one_pos hch
  have hsq := radii_check_scaled x0 y0 x y rxa rya phi
    (ne_of_gt hA) (ne_of_gt hB) hpos
  have hRR := Real.mul_self_sqrt hpos.le
  simp only [arc_core]
  rw [hsq, if_pos hch, if_pos hch, if_neg (lt_irrefl (1 : ℝ)),
    if_neg (lt_irrefl (1 : ℝ))]
  have hLdef0 : radii_check x0 y0 x y rxa rya phi =
      arc_x1p x0 y0 x y phi * arc_x1p x0 y0 x y phi / (rxa * rxa) +
      arc_y1p x0 y0 x y phi * arc_y1p x0 y0 x y phi / (rya * rya) := rfl
  set X := arc_x1p x0 y0 x y phi
  set Y := arc_y1p x0 y0 x y phi
  set L := radii_check x0 y0 x y rxa rya phi with hLset
  set R := Real.sqrt L with hRset
  have hA2 : rxa ≠ 0 := ne_of_gt hA
  have hB2 : rya ≠ 0 := ne_of_gt hB
  have hp : (0 : ℝ) < rxa * rxa * (rya * rya) := by positivity
  have hKey : L * (rxa * rxa * (rya * rya)) =
      rxa * rxa * (Y * Y) + rya * rya * (X * X) := by
    rw [hLdef0]
    field_simp
    ring
  have hdenL : (0 : ℝ) < rxa * rxa * (Y * Y) + rya * rya * (X * X) := by
    nlinarith [hch, hp, hKey]
  have hnumL : rxa * rxa * (rya * rya) - rxa * rxa * (Y * Y) -
      rya * rya * (X * X) ≤ 0 := by
    nlinarith [hch, hp, hKey]
  have hmaxL : max ((rxa * rxa * (rya * rya) - rxa * rxa * (Y * Y) -
      rya * rya * (X * X)) /
      (rxa * rxa * (Y * Y) + rya * rya * (X * X))) 0 = 0 := by
    apply max_eq_right
    exact div_nonpos_of_nonpos_of_nonneg hnumL hdenL.le
  have hnumR : rxa * R * (rxa * R) * (rya * R * (rya * R)) -
      rxa * R * (rxa * R) * (Y * Y) - rya * R * (rya * R) * (X * X) = 0 := by
    linear_combination ((R * R + L) * (rxa * rxa * (rya * rya)) -
      (rxa * rxa * (Y * Y) + rya * rya * (X * X))) * hRR + L * hKey
  have hsqR : (rxa * R * (rxa * R) * (rya * R * (rya * R)) -
      rxa * R * (rxa * R) * (Y * Y) - rya * R * (rya * R) * (X * X)) /
      (rxa * R * (rxa * R) * (Y * Y) + rya * R * (rya * R) * (X * X)) = 0 := by
    rw [hnumR, zero_div]
  rw [hmaxL, hsqR]
  simp [Real.sqrt_zero, max_self]

/-- Claim C4: when the requested radii are too small to span the chord
(x1p²/rx² + y1p²/ry² > 1 after abs), both radii are scaled up uniformly by
sqrt(x1p²/rx² + y1p²/ry²), and the returned (center, start angle, delta
angle) equal those obtained by running the solver with the corrected radii
from the start. -/
theorem claim_arc_radii_correction (x0 y0 x y rx ry phi : ℝ) (laf sf : Bool)
    (hrx : rx ≠ 0) (hry : ry ≠ 0)
    (hch : radii_check x0 y0 x y |rx| |ry| phi > 1) :
    calculate_ellipse_parameters x0 y0 x y rx ry phi laf sf =
      calculate_ellipse_parameters x0 y0 x y
        (|rx| * Real.sqrt (radii_check x0 y0 x y |rx| |ry| phi))
        (|ry| * Real.sqrt (radii_check x0 y0 x y |rx| |ry| phi)) phi laf sf := by
  have hA : (0 : ℝ) < |rx| := abs_pos.mpr hrx
  have hB : (0 : ℝ) < |ry| := abs_pos.mpr hry
  have hpos : (0 : ℝ) < radii_check x0 y0 x y |rx| |ry| phi :=
    lt_trans one_pos hch
  have hR : (0 : ℝ) < Real.sqrt (radii_check x0 y0 x y |rx| |ry| phi) :=
    Real.sqrt_pos.mpr hpos
  have habs1 : abs (|rx| * Real.sqrt (radii_check x0 y0 x y |rx| |ry| phi)) =
      |rx| * Real.sqrt (radii_check x0 y0 x y |rx| |ry| phi) :=
    abs_of_pos (mul_pos hA hR)
  have habs2 : abs (|ry| * Real.sqrt (radii_check x0 y0 x y |rx| |ry| phi)) =
      |ry| * Real.sqrt (radii_check x0 y0 x y |rx| |ry| phi) :=
    abs_of_pos (mul_pos hB hR)
  have hg1 : ¬(|rx| = 0 ∨ |ry| = 0) := by
    push_neg
    exact ⟨ne_of_gt hA, ne_of_gt hB⟩
  have hg2 : ¬(abs (|rx| * Real.sqrt (radii_check x0 y0 x y |rx| |ry| phi)) = 0 ∨
      abs (|ry| * Real.sqrt (radii_check x0 y0 x y |rx| |ry| phi)) = 0) := by
    push_neg
    rw [habs1, habs2]
    exact ⟨ne_of_gt (mul_pos hA hR), ne_of_gt (mul_pos hB hR)⟩
  simp only [calculate_ellipse_parameters]
  rw [if_neg hg1, if_neg hg2, habs1, habs2]
  exact congrArg some
    (arc_core_corrected x0 y0 x y (|rx|) (|ry|) phi laf sf hA hB hch)

theorem claim_arc_radii_correction_witness :
    radii_check 0 0 4 0 |(1 : ℝ)| |(1 : ℝ)| 0 > 1 ∧
    calculate_ellipse_parameters 0 0 4 0 1 1 0 false false =
      calculate_ellipse_parameters 0 0 4 0
        (|(1 : ℝ)| * Real.sqrt (radii_check 0 0 4 0 |(1 : ℝ)| |(1 : ℝ)| 0))
        (|(1 : ℝ)| * Real.sqrt (radii_check 0 0 4 0 |(1 : ℝ)| |(1 : ℝ)| 0))
        0 false false := by
  have hch : radii_check 0 0 4 0 |(1 : ℝ)| |(1 : ℝ)| 0 > 1 := by
    rw [radii_check, arc_x1p, arc_y1p, toRadians]
    norm_num [Real.cos_zero, Real.sin_zero]
  exact ⟨hch, claim_arc_radii_correction 0 0 4 0 1 1 0 false false
    (by norm_num) (by norm_num) hch⟩

end Scavenger
